import Mathlib

/-!
Verification development for the `analyze_df` anomaly-detection pipeline
(`statistical_analysis.py`).

The pipeline is embedded shallowly:

* a pandas dataframe row becomes `Row`; the dataframe (with the presence of the
  extra `"Unnamed: 0"` index column tracked by a flag) becomes `DF`;
* the column assignments of lines 31-32 (`total_proc_count`,
  `difference_count`), which mutate the caller's dataframe in place, become
  `addDerived`; the mutated dataframe is returned alongside the result
  (explicit state passing);
* `drop(columns=...).drop_duplicates()` (line 36) becomes a projection followed
  by `dedupFirst` (pandas `drop_duplicates` keeps the first occurrence);
* the groupby-transform mean/std of lines 38-39 and the second drop/dedup of
  line 107 become `deviceGroup`, `meanQ`, `sampleVarO` and `filteredDf`.
  pandas `std` uses divisor `n - 1` and yields NaN for groups of size < 2; the
  NaN is modelled as `Option.none`.  Since the standard deviation of a rational
  sample is irrational, the embedding carries the exact *square* of the code's
  std column (the sample variance); this is information-preserving (std is the
  nonnegative square root) and keeps the whole pipeline executable over `ℚ`;
* the scikit-learn `IsolationForest` is third-party code: its learned scoring
  function is an abstract parameter `IsoForestAlg` (a pure function of the
  contamination, the seed and the feature matrix — scikit-learn estimators with
  a fixed `random_state` are deterministic), while the *documented input
  validation* of `fit` is embedded concretely in `sklearnFitPredict`:
  parameter validation first (`contamination` must lie in (0, 0.5]), then
  rejection of NaN entries in the feature matrix, then of an empty matrix —
  each a `ValueError`;
* `MinMaxScaler().fit_transform` on a single column becomes `minMaxScale`;
  scikit-learn replaces a zero range by 1 before dividing, so a constant
  column maps to all zeros;
* the exceptions that can actually escape the script are a pandas `KeyError`
  (line 36, when a column to drop is absent) and a scikit-learn `ValueError`;
  they form `PyError`.  The script defines no exception classes of its own.

Definitions written from the specification's words rather than from the source
(for refinement comparisons, and for the one spec-only component) carry a doc
comment saying so.
-/

namespace StatAnalysis

/-- Worker for `dedupFirst`: drop the elements already seen, keep the first
occurrence of the rest. -/
def dedupFirstAux {α : Type} [DecidableEq α] (seen : List α) : List α → List α
  | [] => []
  | x :: xs =>
    if x ∈ seen then dedupFirstAux seen xs
    else x :: dedupFirstAux (x :: seen) xs

/-- `drop_duplicates` semantics: keep the first occurrence of each element. -/
def dedupFirst {α : Type} [DecidableEq α] (l : List α) : List α :=
  dedupFirstAux [] l

/-- One row of the input dataframe: columns `device`, `scan`, `procName`,
`scan_proc_count`, `timestamp` (docstring, line 11), plus the two columns the
function itself assigns (lines 31-32), absent (`none`) until assigned. -/
structure Row where
  device : String
  scan : ℚ
  procName : String
  scan_proc_count : ℚ
  timestamp : ℚ
  total_proc_count : Option ℚ := none
  difference_count : Option ℚ := none
deriving DecidableEq, Repr

/-- The input dataframe.  `hasUnnamed0` records whether the dataframe carries
the `"Unnamed: 0"` index column that line 36 unconditionally drops (pandas
raises `KeyError` when a column to drop is missing). -/
structure DF where
  hasUnnamed0 : Bool
  rows : List Row
deriving DecidableEq, Repr

/-- Line 31: `df.groupby(['device', 'scan'])['procName'].transform('count')` —
the number of rows sharing this row's `(device, scan)` pair. -/
def countGroup (rows : List Row) (d : String) (s : ℚ) : ℕ :=
  (rows.filter (fun r => decide (r.device = d ∧ r.scan = s))).length

/-- Lines 31-32: assign the `total_proc_count` and `difference_count` columns
(in place, on the caller's dataframe). -/
def addDerived (rows : List Row) : List Row :=
  rows.map fun r =>
    let t : ℚ := countGroup rows r.device r.scan
    { r with total_proc_count := some t, difference_count := some (t - r.scan_proc_count) }

/-- A row of `data_no_proc` (line 36): after dropping `"Unnamed: 0"`,
`procName`, `scan_proc_count`, `timestamp` and `total_proc_count`, the columns
`device`, `scan`, `difference_count` remain. -/
structure NPRow where
  device : String
  scan : ℚ
  difference_count : ℚ
deriving DecidableEq, Repr

/-- Line 36: project the mutated rows onto the remaining columns and
de-duplicate. -/
def dataNoProc (rows : List Row) : List NPRow :=
  dedupFirst (rows.map fun r =>
    ⟨r.device, r.scan, r.difference_count.getD 0⟩)

/-- The `data_no_proc` table as computed from the *input* rows (lines 31-36). -/
def npOf (rows : List Row) : List NPRow :=
  dataNoProc (addDerived rows)

/-- The `difference_count` values of one device's group
(`data_no_proc.groupby('device')['difference_count']`). -/
def deviceGroup (np : List NPRow) (d : String) : List ℚ :=
  (np.filter (fun r => decide (r.device = d))).map (·.difference_count)

/-- Arithmetic mean of a list of rationals (pandas `mean`). -/
def meanQ (xs : List ℚ) : ℚ :=
  xs.sum / (xs.length : ℚ)

/-- The square of pandas `std` (sample standard deviation, divisor `n - 1`):
`none` models the NaN produced for groups with fewer than two values. -/
def sampleVarO (xs : List ℚ) : Option ℚ :=
  if 2 ≤ xs.length then
    some (((xs.map (fun x => (x - meanQ xs) ^ 2)).sum) / ((xs.length : ℚ) - 1))
  else none

/-- A row of `filtered_df` (line 107): columns `device`,
`mean_difference_count` and the std column (carried as its square,
`none` = NaN). -/
structure FRow where
  device : String
  mean_difference_count : ℚ
  stdsq_difference_count : Option ℚ
deriving DecidableEq, Repr

/-- Lines 38-39 and 107: attach the per-device mean and std columns, drop
`scan` and `difference_count`, and de-duplicate. -/
def filteredDf (np : List NPRow) : List FRow :=
  dedupFirst (np.map fun r =>
    ⟨r.device, meanQ (deviceGroup np r.device), sampleVarO (deviceGroup np r.device)⟩)

/-- The `filtered_df` table as computed from the input rows. -/
def fdOf (rows : List Row) : List FRow :=
  filteredDf (npOf rows)

/-- Line 108: the feature matrix
`filtered_df[['mean_difference_count', 'std_difference_count']]` passed to the
isolation forest.  The second coordinate is `none` exactly when the code's
std entry is NaN. -/
def featuresOf (rows : List Row) : List (ℚ × Option ℚ) :=
  (fdOf rows).map fun r => (r.mean_difference_count, r.stdsq_difference_count)

/-- The deterministic function computed by a fitted
`IsolationForest(contamination, random_state)`: labels (`-1` anomalous, `1`
normal) and decision-function scores, as pure functions of the contamination,
the seed and the feature matrix.  The pipeline's theorems are proved for every
such algorithm, hence in particular for scikit-learn's. -/
structure IsoForestAlg where
  fitPredict : ℚ → ℕ → List (ℚ × Option ℚ) → List ℤ
  decisionFunction : ℚ → ℕ → List (ℚ × Option ℚ) → List ℚ

/-- The exceptions that can escape the script: pandas `KeyError` (dropping a
missing column) and scikit-learn `ValueError` (invalid estimator parameter or
invalid feature matrix).  The script defines no exception classes of its
own. -/
inductive PyError where
  | keyError (column : String)
  | valueError (msg : String)
deriving DecidableEq, Repr

instance {ε α : Type} [DecidableEq ε] [DecidableEq α] :
    DecidableEq (Except ε α) := fun a b =>
  match a, b with
  | .error e, .error f =>
    if h : e = f then isTrue (by rw [h]) else isFalse (by intro hh; cases hh; exact h rfl)
  | .ok x, .ok y =>
    if h : x = y then isTrue (by rw [h]) else isFalse (by intro hh; cases hh; exact h rfl)
  | .error _, .ok _ => isFalse (by intro hh; cases hh)
  | .ok _, .error _ => isFalse (by intro hh; cases hh)

/-- Lines 109-111 as observed at the call boundary: scikit-learn's `fit`
first validates the estimator parameters (`contamination` must lie in
(0, 0.5]), then validates the input array (no NaN entries, at least one
sample), raising `ValueError` otherwise; only then are labels and scores
produced. -/
def sklearnFitPredict (alg : IsoForestAlg) (contamination : ℚ) (seed : ℕ)
    (features : List (ℚ × Option ℚ)) : Except PyError (List ℤ × List ℚ) :=
  if ¬ (0 < contamination ∧ contamination ≤ 1 / 2) then
    .error (.valueError "contamination")
  else if features.any (fun f => decide (f.2 = none)) then
    .error (.valueError "NaN")
  else if features.length = 0 then
    .error (.valueError "0 samples")
  else
    .ok (alg.fitPredict contamination seed features, alg.decisionFunction contamination seed features)

/-- Minimum of a list of rationals (0 for the empty list, which scikit-learn
never reaches: fitting an empty column raises beforehand). -/
def listMin : List ℚ → ℚ
  | [] => 0
  | x :: xs => xs.foldl min x

/-- Maximum of a list of rationals. -/
def listMax : List ℚ → ℚ
  | [] => 0
  | x :: xs => xs.foldl max x

/-- Lines 115-116: `MinMaxScaler().fit_transform` on one column.  scikit-learn
computes `(x - min) / (max - min)`, replacing a zero range by 1 before
dividing (`_handle_zeros_in_scale`), so a constant column maps to zeros. -/
def minMaxScale (xs : List ℚ) : List ℚ :=
  xs.map fun x =>
    (x - listMin xs) / (if listMax xs - listMin xs = 0 then 1 else listMax xs - listMin xs)

/-- Lines 8-129, plotting (`create_plots=False` path) and printing omitted:
the full pipeline.  Returns the set of anomalous devices (line 126) together
with the caller's dataframe as it stands after the call — lines 31-32 mutate
it in place, which the embedding renders as explicit state passing. -/
def analyze_df (alg : IsoForestAlg) (df : DF) (anomaly_percentage : ℚ) :
    Except PyError (Finset String × DF) :=
  -- lines 31-32 mutate the caller's dataframe before anything can fail;
  -- line 36 then drops "Unnamed: 0": KeyError when the column is absent.
  -- `featuresOf`/`fdOf` are the lines 36-108 pipeline on the mutated rows.
  if df.hasUnnamed0 = false then .error (.keyError "Unnamed: 0")
  else
    match sklearnFitPredict alg anomaly_percentage 42 (featuresOf df.rows) with
    | .error e => .error e
    | .ok (labels, scores) =>
      let _normalized := minMaxScale (scores.map fun s => -s)
      let anomalous :=
        ((((fdOf df.rows).zip labels).filter
          (fun p => decide (p.2 = -1))).map (fun p => p.1.device)).toFinset
      .ok (anomalous, { df with rows := addDerived df.rows })

/-! ### Specification-side definitions

These follow the specification's words (§3, §4.1, §4.3) and are compared with
the code-side pipeline above. -/

/-- Well-formed input: the reported `scan_proc_count` is constant within each
`(device, scan)` group (spec §4.1 step 2: "reported_proc_count is constant
within the group").  Without this the notion of "the per-scan discrepancy" is
ill-defined. -/
def WFRows (rows : List Row) : Prop :=
  ∀ r ∈ rows, ∀ q ∈ rows,
    r.device = q.device → r.scan = q.scan → r.scan_proc_count = q.scan_proc_count

instance (rows : List Row) : Decidable (WFRows rows) := by
  unfold WFRows; infer_instance

/-- Spec §4.1 step 2: the reported count of a `(device, scan)` group, read off
the group's first occurrence. -/
def specReported (rows : List Row) (d : String) (s : ℚ) : ℚ :=
  (((rows.filter (fun r => decide (r.device = d ∧ r.scan = s))).head?).map
    Row.scan_proc_count).getD 0

/-- Spec §3: discrepancy = observed_proc_count − reported_proc_count, where
observed_proc_count is the number of process-name rows of the
`(device, scan)` group. -/
def specDiscrepancy (rows : List Row) (d : String) (s : ℚ) : ℚ :=
  (countGroup rows d s : ℚ) - specReported rows d s

/-- The distinct scans of a device, in order of first appearance. -/
def distinctScans (rows : List Row) (d : String) : List ℚ :=
  dedupFirst ((rows.filter (fun r => decide (r.device = d))).map (·.scan))

/-- The per-scan discrepancies of a device, one value per distinct scan. -/
def specDiscrepancies (rows : List Row) (d : String) : List ℚ :=
  (distinctScans rows d).map (specDiscrepancy rows d)

/-- Spec §3: mean_discrepancy = arithmetic mean of the device's per-scan
discrepancies. -/
def specMean (rows : List Row) (d : String) : ℚ :=
  meanQ (specDiscrepancies rows d)

/-- Spec §3: the square of std_discrepancy (sample standard deviation,
divisor `n − 1`; `none` when the device has fewer than 2 scans). -/
def specVar (rows : List Row) (d : String) : Option ℚ :=
  sampleVarO (specDiscrepancies rows d)

/-- The distinct devices of the input, in order of first appearance. -/
def devicesOf (rows : List Row) : List String :=
  dedupFirst (rows.map (·.device))

/-- The unique `filtered_df` row of a device. -/
def deviceFeature (rows : List Row) (d : String) : FRow :=
  ⟨d, meanQ (deviceGroup (npOf rows) d), sampleVarO (deviceGroup (npOf rows) d)⟩

/-- All elements of the list are equal. -/
def allEqualQ (xs : List ℚ) : Prop :=
  ∀ x ∈ xs, ∀ y ∈ xs, x = y

/-- The Score Normalizer formula exactly as the specification states it
(§4.3): `(−raw − min(−raw)) / (max(−raw) − min(−raw))`, and 0 for every
device when all raw scores are equal. -/
def specNormalize (scores : List ℚ) : List ℚ :=
  scores.map fun s =>
    if listMax (scores.map fun x => -x) - listMin (scores.map fun x => -x) = 0 then 0
    else (-s - listMin (scores.map fun x => -x)) /
      (listMax (scores.map fun x => -x) - listMin (scores.map fun x => -x))

/-- Boolean comparison ordering device indices by (raw score ascending, index
ascending): with the "lower = more anomalous" raw-score convention, earlier
means more anomalous, with ties broken by stable input order. -/
def thresholdKey (scores : List ℚ) (i j : ℕ) : Bool :=
  decide (scores.getD i 0 < scores.getD j 0 ∨
    (scores.getD i 0 = scores.getD j 0 ∧ i ≤ j))

/-- Modelled from the spec: the Isolation Ensemble's thresholding step
(§4.2).  The ensemble implementation is not part of the repository source —
the script delegates it to a library call, so only its caller is in `src/` —
and the specification prescribes: "sort all device scores; classify the top
c-fraction (rounded) as is_anomaly = true (most anomalous per the chosen sign
convention); all others false.  Ties at the boundary broken by stable input
order (first-seen device_id wins inclusion)."  `specThreshold scores c`
returns the `is_anomaly` flag for each score position, built on
`thresholdOrder`, the device indices sorted most-anomalous-first, stably. -/
def thresholdOrder (scores : List ℚ) : List ℕ :=
  (List.range scores.length).mergeSort (thresholdKey scores)

def specThreshold (scores : List ℚ) (c : ℚ) : List Bool :=
  (List.range scores.length).map fun i =>
    decide (i ∈ (thresholdOrder scores).take (round (c * (scores.length : ℚ))).toNat)

/-- A row with the two in-place-assigned columns cleared: the original five
input columns. -/
def stripDerived (r : Row) : Row :=
  { r with total_proc_count := none, difference_count := none }

/-! ### Concrete instances used by witnesses and counterexamples -/

/-- An isolation-forest algorithm instance labelling every sample normal
(`1`), as scikit-learn does for a population with a single sample. -/
def algNormal : IsoForestAlg :=
  ⟨fun _ _ fs => fs.map fun _ => 1, fun _ _ fs => fs.map fun _ => 0⟩

/-- An isolation-forest algorithm instance labelling every sample anomalous
(`-1`). -/
def algAllAnom : IsoForestAlg :=
  ⟨fun _ _ fs => fs.map fun _ => -1, fun _ _ fs => fs.map fun _ => 0⟩

/-- Build an input row (timestamp 0, derived columns absent). -/
def mkRow (d : String) (s : ℚ) (p : String) (c : ℚ) : Row :=
  ⟨d, s, p, c, 0, none, none⟩

/-- Device `a` has exactly one scan (two process rows); device `b` has two
scans. -/
def dfSingle : DF :=
  ⟨true, [mkRow "a" 1 "p" 2, mkRow "a" 1 "q" 2, mkRow "b" 1 "p" 0, mkRow "b" 2 "p" 0]⟩

/-- Exactly one device, with two scans: one valid feature vector. -/
def dfOne : DF :=
  ⟨true, [mkRow "a" 1 "p" 0, mkRow "a" 2 "p" 0]⟩

/-- Two devices with two scans each: two valid feature vectors. -/
def dfTwo : DF :=
  ⟨true, [mkRow "a" 1 "p" 0, mkRow "a" 2 "p" 0, mkRow "b" 1 "p" 1, mkRow "b" 2 "p" 1]⟩

/-- `dfTwo` as it stands after the in-place column assignments of
lines 31-32. -/
def dfTwoMut : DF :=
  ⟨true,
   [⟨"a", 1, "p", 0, 0, some 1, some 1⟩, ⟨"a", 2, "p", 0, 0, some 1, some 1⟩,
    ⟨"b", 1, "p", 1, 0, some 1, some 0⟩, ⟨"b", 2, "p", 1, 0, some 1, some 0⟩]⟩

/-- `dfOne` after the in-place column assignments. -/
def dfOneMut : DF :=
  ⟨true, [⟨"a", 1, "p", 0, 0, some 1, some 1⟩, ⟨"a", 2, "p", 0, 0, some 1, some 1⟩]⟩

/-- An input lacking the `"Unnamed: 0"` column (which is absent from the five
documented input columns). -/
def dfNoU : DF :=
  ⟨false, [mkRow "a" 1 "p" 0]⟩

/-! ### Basic lemmas about the building blocks -/

theorem mem_dedupFirstAux {α : Type} [DecidableEq α] {a : α} :
    ∀ {l seen : List α}, a ∈ dedupFirstAux seen l ↔ a ∈ l ∧ a ∉ seen := by
  intro l
  induction l with
  | nil => intro seen; simp [dedupFirstAux]
  | cons x xs ih =>
    intro seen
    rw [dedupFirstAux]
    by_cases hx : x ∈ seen
    · rw [if_pos hx, ih]
      simp only [List.mem_cons]
      by_cases hax : a = x
      · subst hax; tauto
      · tauto
    · rw [if_neg hx]
      simp only [List.mem_cons, ih, List.mem_cons]
      by_cases hax : a = x
      · subst hax; tauto
      · tauto

theorem mem_dedupFirst {α : Type} [DecidableEq α] {a : α} {l : List α} :
    a ∈ dedupFirst l ↔ a ∈ l := by
  rw [dedupFirst, mem_dedupFirstAux]
  simp

theorem nodup_dedupFirstAux {α : Type} [DecidableEq α] :
    ∀ {l seen : List α}, (dedupFirstAux seen l).Nodup := by
  intro l
  induction l with
  | nil => intro seen; simp [dedupFirstAux]
  | cons x xs ih =>
    intro seen
    rw [dedupFirstAux]
    by_cases hx : x ∈ seen
    · rw [if_pos hx]; exact ih
    · rw [if_neg hx]
      refine List.nodup_cons.2 ⟨?_, ih⟩
      intro hmem
      exact (mem_dedupFirstAux.1 hmem).2 (List.mem_cons_self x seen)

theorem nodup_dedupFirst {α : Type} [DecidableEq α] {l : List α} :
    (dedupFirst l).Nodup := nodup_dedupFirstAux

theorem foldl_min_le_init (xs : List ℚ) (a : ℚ) : xs.foldl min a ≤ a := by
  induction xs generalizing a with
  | nil => simp
  | cons x xs ih =>
    simpa using le_trans (ih (min a x)) (min_le_left a x)

theorem foldl_min_le_mem (xs : List ℚ) (a x : ℚ) (hx : x ∈ xs) :
    xs.foldl min a ≤ x := by
  induction xs generalizing a with
  | nil => cases hx
  | cons y ys ih =>
    rcases List.mem_cons.1 hx with rfl | h
    · simpa using le_trans (foldl_min_le_init ys (min a x)) (min_le_right a x)
    · simpa using ih (min a y) h

theorem foldl_min_mem (xs : List ℚ) (a : ℚ) :
    xs.foldl min a = a ∨ xs.foldl min a ∈ xs := by
  induction xs generalizing a with
  | nil => left; rfl
  | cons y ys ih =>
    simp only [List.foldl_cons, List.mem_cons]
    rcases ih (min a y) with h | h
    · rcases min_choice a y with h2 | h2 <;> rw [h, h2]
      · left; rfl
      · right; left; rfl
    · right; right; exact h

theorem init_le_foldl_max (xs : List ℚ) (a : ℚ) : a ≤ xs.foldl max a := by
  induction xs generalizing a with
  | nil => simp
  | cons x xs ih =>
    simpa using le_trans (le_max_left a x) (ih (max a x))

theorem mem_le_foldl_max (xs : List ℚ) (a x : ℚ) (hx : x ∈ xs) :
    x ≤ xs.foldl max a := by
  induction xs generalizing a with
  | nil => cases hx
  | cons y ys ih =>
    rcases List.mem_cons.1 hx with rfl | h
    · simpa using le_trans (le_max_right a x) (init_le_foldl_max ys (max a x))
    · simpa using ih (max a y) h

theorem foldl_max_mem (xs : List ℚ) (a : ℚ) :
    xs.foldl max a = a ∨ xs.foldl max a ∈ xs := by
  induction xs generalizing a with
  | nil => left; rfl
  | cons y ys ih =>
    simp only [List.foldl_cons, List.mem_cons]
    rcases ih (max a y) with h | h
    · rcases max_choice a y with h2 | h2 <;> rw [h, h2]
      · left; rfl
      · right; left; rfl
    · right; right; exact h

theorem listMin_le (xs : List ℚ) (x : ℚ) (hx : x ∈ xs) : listMin xs ≤ x := by
  cases xs with
  | nil => cases hx
  | cons y ys =>
    rcases List.mem_cons.1 hx with rfl | h
    · exact foldl_min_le_init ys x
    · exact foldl_min_le_mem ys y x h

theorem listMin_mem (xs : List ℚ) (hne : xs ≠ []) : listMin xs ∈ xs := by
  cases xs with
  | nil => cases hne rfl
  | cons y ys =>
    rcases foldl_min_mem ys y with h | h
    · rw [listMin, h]; exact List.mem_cons_self _ _
    · exact List.mem_cons_of_mem _ h

theorem le_listMax (xs : List ℚ) (x : ℚ) (hx : x ∈ xs) : x ≤ listMax xs := by
  cases xs with
  | nil => cases hx
  | cons y ys =>
    rcases List.mem_cons.1 hx with rfl | h
    · exact init_le_foldl_max ys x
    · exact mem_le_foldl_max ys y x h

theorem listMax_mem (xs : List ℚ) (hne : xs ≠ []) : listMax xs ∈ xs := by
  cases xs with
  | nil => cases hne rfl
  | cons y ys =>
    rcases foldl_max_mem ys y with h | h
    · rw [listMax, h]; exact List.mem_cons_self _ _
    · exact List.mem_cons_of_mem _ h

/-! ### Structure of the aggregation pipeline -/

theorem npOf_eq (rows : List Row) :
    npOf rows = dedupFirst (rows.map fun r =>
      (⟨r.device, r.scan,
        (countGroup rows r.device r.scan : ℚ) - r.scan_proc_count⟩ : NPRow)) := by
  unfold npOf dataNoProc addDerived
  rw [List.map_map]
  rfl

theorem mem_npOf {rows : List Row} {t : NPRow} :
    t ∈ npOf rows ↔ ∃ r ∈ rows,
      t = ⟨r.device, r.scan,
        (countGroup rows r.device r.scan : ℚ) - r.scan_proc_count⟩ := by
  rw [npOf_eq, mem_dedupFirst, List.mem_map]
  constructor <;> rintro ⟨r, hr, h⟩ <;> exact ⟨r, hr, h.symm⟩

theorem nodup_npOf (rows : List Row) : (npOf rows).Nodup := by
  rw [npOf_eq]; exact nodup_dedupFirst

theorem scan_proc_count_eq_specReported {rows : List Row} (hWF : WFRows rows)
    {r : Row} (hr : r ∈ rows) :
    r.scan_proc_count = specReported rows r.device r.scan := by
  have hmem : r ∈ rows.filter (fun q => decide (q.device = r.device ∧ q.scan = r.scan)) :=
    List.mem_filter.2 ⟨hr, by simp⟩
  cases hfl : rows.filter (fun q => decide (q.device = r.device ∧ q.scan = r.scan)) with
  | nil => rw [hfl] at hmem; cases hmem
  | cons q qs =>
    have hq : q ∈ rows.filter (fun q => decide (q.device = r.device ∧ q.scan = r.scan)) := by
      rw [hfl]; exact List.mem_cons_self _ _
    obtain ⟨hqrows, hprop⟩ := List.mem_filter.1 hq
    rw [decide_eq_true_eq] at hprop
    unfold specReported
    rw [hfl]
    simp only [List.head?_cons, Option.map_some', Option.getD_some]
    exact hWF r hr q hqrows hprop.1.symm hprop.2.symm

theorem mem_npOf_of_WF {rows : List Row} (hWF : WFRows rows) {t : NPRow} :
    t ∈ npOf rows ↔ ∃ r ∈ rows,
      t = ⟨r.device, r.scan, specDiscrepancy rows r.device r.scan⟩ := by
  rw [mem_npOf]
  constructor <;> rintro ⟨r, hr, rfl⟩ <;> refine ⟨r, hr, ?_⟩ <;>
    rw [specDiscrepancy, scan_proc_count_eq_specReported hWF hr]

theorem mem_distinctScans {rows : List Row} {d : String} {s : ℚ} :
    s ∈ distinctScans rows d ↔ ∃ r ∈ rows, r.device = d ∧ r.scan = s := by
  unfold distinctScans
  rw [mem_dedupFirst]
  simp only [List.mem_map, List.mem_filter, decide_eq_true_eq]
  tauto

theorem nodup_distinctScans (rows : List Row) (d : String) :
    (distinctScans rows d).Nodup := nodup_dedupFirst

theorem mem_npOf_filter {rows : List Row} (hWF : WFRows rows) {d : String} {t : NPRow} :
    t ∈ (npOf rows).filter (fun u => decide (u.device = d)) ↔
      ∃ s ∈ distinctScans rows d, t = ⟨d, s, specDiscrepancy rows d s⟩ := by
  rw [List.mem_filter, mem_npOf_of_WF hWF]
  constructor
  · rintro ⟨⟨r, hr, rfl⟩, hd⟩
    rw [decide_eq_true_eq] at hd
    dsimp at hd
    subst hd
    exact ⟨r.scan, mem_distinctScans.2 ⟨r, hr, rfl, rfl⟩, rfl⟩
  · rintro ⟨s, hs, rfl⟩
    obtain ⟨r, hr, hrd, hrs⟩ := mem_distinctScans.1 hs
    subst hrd; subst hrs
    exact ⟨⟨r, hr, rfl⟩, by simp⟩

theorem npScans_perm {rows : List Row} (hWF : WFRows rows) (d : String) :
    List.Perm (((npOf rows).filter (fun u => decide (u.device = d))).map NPRow.scan)
      (distinctScans rows d) := by
  have nd1 : (((npOf rows).filter (fun u => decide (u.device = d))).map NPRow.scan).Nodup := by
    refine List.Nodup.map_on ?_ ((nodup_npOf rows).filter _)
    intro x hx y hy hxy
    obtain ⟨sx, _, rfl⟩ := (mem_npOf_filter hWF).1 hx
    obtain ⟨sy, _, rfl⟩ := (mem_npOf_filter hWF).1 hy
    dsimp at hxy
    subst hxy
    rfl
  refine (List.perm_ext_iff_of_nodup nd1 (nodup_distinctScans rows d)).2 ?_
  intro s
  rw [List.mem_map]
  constructor
  · rintro ⟨t, ht, rfl⟩
    obtain ⟨s', hs', rfl⟩ := (mem_npOf_filter hWF).1 ht
    exact hs'
  · intro hs
    exact ⟨⟨d, s, specDiscrepancy rows d s⟩, (mem_npOf_filter hWF).2 ⟨s, hs, rfl⟩, rfl⟩

theorem deviceGroup_perm {rows : List Row} (hWF : WFRows rows) (d : String) :
    List.Perm (deviceGroup (npOf rows) d) (specDiscrepancies rows d) := by
  unfold deviceGroup specDiscrepancies
  have heq : ((npOf rows).filter (fun u => decide (u.device = d))).map (·.difference_count)
      = (((npOf rows).filter (fun u => decide (u.device = d))).map NPRow.scan).map
          (specDiscrepancy rows d) := by
    rw [List.map_map]
    apply List.map_congr_left
    intro t ht
    obtain ⟨s, _, rfl⟩ := (mem_npOf_filter hWF).1 ht
    rfl
  rw [heq]
  exact (npScans_perm hWF d).map _

theorem meanQ_perm {l₁ l₂ : List ℚ} (h : List.Perm l₁ l₂) : meanQ l₁ = meanQ l₂ := by
  unfold meanQ
  rw [h.sum_eq, h.length_eq]

theorem sampleVarO_perm {l₁ l₂ : List ℚ} (h : List.Perm l₁ l₂) :
    sampleVarO l₁ = sampleVarO l₂ := by
  unfold sampleVarO
  rw [h.length_eq, meanQ_perm h, (h.map fun x => (x - meanQ l₂) ^ 2).sum_eq]

theorem fdOf_eq (rows : List Row) :
    fdOf rows = dedupFirst ((npOf rows).map fun t => deviceFeature rows t.device) := rfl

theorem mem_devicesOf {rows : List Row} {d : String} :
    d ∈ devicesOf rows ↔ ∃ r ∈ rows, r.device = d := by
  unfold devicesOf
  rw [mem_dedupFirst]
  simp [List.mem_map]

theorem mem_fdOf {rows : List Row} {fr : FRow} :
    fr ∈ fdOf rows ↔ ∃ d ∈ devicesOf rows, fr = deviceFeature rows d := by
  rw [fdOf_eq, mem_dedupFirst, List.mem_map]
  constructor
  · rintro ⟨t, ht, rfl⟩
    obtain ⟨r, hr, rfl⟩ := mem_npOf.1 ht
    exact ⟨r.device, mem_devicesOf.2 ⟨r, hr, rfl⟩, rfl⟩
  · rintro ⟨d, hd, rfl⟩
    obtain ⟨r, hr, rfl⟩ := mem_devicesOf.1 hd
    exact ⟨⟨r.device, r.scan,
      (countGroup rows r.device r.scan : ℚ) - r.scan_proc_count⟩,
      mem_npOf.2 ⟨r, hr, rfl⟩, rfl⟩

theorem nodup_fdOf (rows : List Row) : (fdOf rows).Nodup := by
  rw [fdOf_eq]; exact nodup_dedupFirst

theorem mem_fdOf_self_device {rows : List Row} {fr : FRow} (h : fr ∈ fdOf rows) :
    fr = deviceFeature rows fr.device := by
  obtain ⟨d, _, rfl⟩ := mem_fdOf.1 h
  rfl

/-- C3, main content: the feature table has exactly one row per distinct
device, and its columns are the spec's per-device statistics. -/
theorem fdOf_one_row_per_device (rows : List Row) :
    ((fdOf rows).map FRow.device).Nodup ∧
      ∀ d, d ∈ (fdOf rows).map FRow.device ↔ d ∈ devicesOf rows := by
  constructor
  · refine List.Nodup.map_on ?_ (nodup_fdOf rows)
    intro x hx y hy hxy
    rw [mem_fdOf_self_device hx, mem_fdOf_self_device hy, hxy]
  · intro d
    rw [List.mem_map]
    constructor
    · rintro ⟨fr, hfr, rfl⟩
      obtain ⟨d', hd', rfl⟩ := mem_fdOf.1 hfr
      exact hd'
    · intro hd
      exact ⟨deviceFeature rows d, mem_fdOf.2 ⟨d, hd, rfl⟩, rfl⟩

theorem sklearnFitPredict_ok {alg : IsoForestAlg} {c : ℚ} {s : ℕ}
    {fs : List (ℚ × Option ℚ)} {pr : List ℤ × List ℚ}
    (h : sklearnFitPredict alg c s fs = .ok pr) :
    pr = (alg.fitPredict c s fs, alg.decisionFunction c s fs) := by
  unfold sklearnFitPredict at h
  split at h
  · cases h
  · split at h
    · cases h
    · split at h
      · cases h
      · cases h
        rfl

/-! ### Claim theorems -/

/-- C3: for every well-formed input, the derived feature table has exactly one
row per distinct device_id, and that row's `mean_difference_count` is the
arithmetic mean of the device's per-scan discrepancies
(observed − reported, one value per distinct scan) while its std column is the
sample standard deviation with divisor `n − 1` (carried as its square, `none`
for fewer than two scans), exactly as the specification's Aggregator
prescribes. -/
theorem feature_table_matches_spec (rows : List Row) (hWF : WFRows rows) :
    ((fdOf rows).map FRow.device).Nodup ∧
    (∀ d, d ∈ (fdOf rows).map FRow.device ↔ d ∈ devicesOf rows) ∧
    ∀ fr ∈ fdOf rows,
      fr.mean_difference_count = specMean rows fr.device ∧
      fr.stdsq_difference_count = specVar rows fr.device := by
  refine ⟨(fdOf_one_row_per_device rows).1, (fdOf_one_row_per_device rows).2, ?_⟩
  intro fr hfr
  have h := mem_fdOf_self_device hfr
  constructor
  · conv_lhs => rw [h]
    exact meanQ_perm (deviceGroup_perm hWF fr.device)
  · conv_lhs => rw [h]
    exact sampleVarO_perm (deviceGroup_perm hWF fr.device)

/-- Witness for C3 at a concrete well-formed input. -/
theorem feature_table_matches_spec_witness :
    ((fdOf dfTwo.rows).map FRow.device).Nodup ∧
    (∀ d, d ∈ (fdOf dfTwo.rows).map FRow.device ↔ d ∈ devicesOf dfTwo.rows) ∧
    ∀ fr ∈ fdOf dfTwo.rows,
      fr.mean_difference_count = specMean dfTwo.rows fr.device ∧
      fr.stdsq_difference_count = specVar dfTwo.rows fr.device :=
  feature_table_matches_spec dfTwo.rows (by decide)

/-- C1: whenever the pipeline returns, the returned set contains exactly the
devices of the scored table whose ensemble label is `-1` (pandas/scikit-learn's
encoding of `is_anomaly = true`), and nothing else. -/
theorem analyze_df_returns_anomaly_label_set (alg : IsoForestAlg) (df : DF)
    (c : ℚ) (S : Finset String) (dfPost : DF)
    (h : analyze_df alg df c = .ok (S, dfPost)) :
    ∀ dev, dev ∈ S ↔
      ∃ p ∈ (fdOf df.rows).zip (alg.fitPredict c 42 (featuresOf df.rows)),
        p.1.device = dev ∧ p.2 = -1 := by
  unfold analyze_df at h
  by_cases hu : df.hasUnnamed0 = false
  · rw [if_pos hu] at h; cases h
  · rw [if_neg hu] at h
    cases hsk : sklearnFitPredict alg c 42 (featuresOf df.rows) with
    | error e => rw [hsk] at h; cases h
    | ok pr =>
      rw [hsk] at h
      rw [sklearnFitPredict_ok hsk] at h
      simp only [Except.ok.injEq, Prod.mk.injEq] at h
      obtain ⟨hS, _⟩ := h
      intro dev
      rw [← hS]
      simp only [List.mem_toFinset, List.mem_map, List.mem_filter,
        decide_eq_true_eq]
      constructor
      · rintro ⟨p, ⟨hp, hlab⟩, hdev⟩
        exact ⟨p, hp, hdev, hlab⟩
      · rintro ⟨p, hp, hdev, hlab⟩
        exact ⟨p, ⟨hp, hlab⟩, hdev⟩

unseal Rat.add Rat.sub Rat.mul Rat.inv in
/-- Witness for C1 at a concrete input and algorithm instance. -/
theorem analyze_df_returns_anomaly_label_set_witness :
    "a" ∈ (["a", "b"] : List String).toFinset ↔
      ∃ p ∈ (fdOf dfTwo.rows).zip
          (algAllAnom.fitPredict (3/20) 42 (featuresOf dfTwo.rows)),
        p.1.device = "a" ∧ p.2 = -1 :=
  analyze_df_returns_anomaly_label_set algAllAnom dfTwo (3/20)
    (["a", "b"] : List String).toFinset dfTwoMut (by decide) "a"

/-- C5: the pipeline is a deterministic function of its input records,
configuration and seed (the script fixes `random_state=42`, and a fitted
scikit-learn estimator with a fixed seed is a pure function of its inputs,
which the embedding makes explicit): two invocations on identical inputs
yield identical anomalous sets, identical labels and identical raw scores. -/
theorem analyze_df_deterministic (alg : IsoForestAlg) (df₁ df₂ : DF)
    (c₁ c₂ : ℚ) (hdf : df₁ = df₂) (hc : c₁ = c₂) :
    analyze_df alg df₁ c₁ = analyze_df alg df₂ c₂ ∧
    alg.fitPredict c₁ 42 (featuresOf df₁.rows) =
      alg.fitPredict c₂ 42 (featuresOf df₂.rows) ∧
    alg.decisionFunction c₁ 42 (featuresOf df₁.rows) =
      alg.decisionFunction c₂ 42 (featuresOf df₂.rows) := by
  subst hdf; subst hc; exact ⟨rfl, rfl, rfl⟩

/-- Witness for C5 at a concrete input. -/
theorem analyze_df_deterministic_witness :
    analyze_df algNormal dfTwo (3/20) = analyze_df algNormal dfTwo (3/20) ∧
    algNormal.fitPredict (3/20) 42 (featuresOf dfTwo.rows) =
      algNormal.fitPredict (3/20) 42 (featuresOf dfTwo.rows) ∧
    algNormal.decisionFunction (3/20) 42 (featuresOf dfTwo.rows) =
      algNormal.decisionFunction (3/20) 42 (featuresOf dfTwo.rows) :=
  analyze_df_deterministic algNormal dfTwo dfTwo (3/20) (3/20) rfl rfl

/-- C10: an input dataframe lacking the undocumented `"Unnamed: 0"` column
makes `analyze_df` fail with the `KeyError` of the column drop (line 36),
before any scoring is performed — the outcome does not depend on the
scoring algorithm at all. -/
theorem missing_unnamed0_column_keyerror (alg alg₂ : IsoForestAlg) (df : DF)
    (c : ℚ) (h : df.hasUnnamed0 = false) :
    analyze_df alg df c = .error (.keyError "Unnamed: 0") ∧
    analyze_df alg df c = analyze_df alg₂ df c := by
  unfold analyze_df
  rw [if_pos h, if_pos h]
  exact ⟨rfl, rfl⟩

/-- Witness for C10 at a concrete input lacking the column. -/
theorem missing_unnamed0_column_keyerror_witness :
    analyze_df algNormal dfNoU (3/20) = .error (.keyError "Unnamed: 0") ∧
    analyze_df algNormal dfNoU (3/20) = analyze_df algAllAnom dfNoU (3/20) :=
  missing_unnamed0_column_keyerror algNormal algAllAnom dfNoU (3/20) (by decide)

theorem analyze_df_ok_of_valid (alg : IsoForestAlg) (df : DF) (c : ℚ)
    (hu : df.hasUnnamed0 = true) (hc1 : 0 < c) (hc2 : c ≤ 1 / 2)
    (hne : featuresOf df.rows ≠ [])
    (hval : ∀ f ∈ featuresOf df.rows, f.2 ≠ none) :
    analyze_df alg df c =
      .ok (((((fdOf df.rows).zip (alg.fitPredict c 42 (featuresOf df.rows))).filter
            (fun p => decide (p.2 = -1))).map (fun p => p.1.device)).toFinset,
          { df with rows := addDerived df.rows }) := by
  unfold analyze_df sklearnFitPredict
  rw [if_neg (by rw [hu]; simp)]
  rw [if_neg (not_not_intro ⟨hc1, hc2⟩)]
  have hany : (featuresOf df.rows).any (fun f => decide (f.2 = none)) = false := by
    rw [List.any_eq_false]
    intro f hf
    simpa using hval f hf
  rw [if_neg (by rw [hany]; simp)]
  rw [if_neg (fun h => hne (List.length_eq_zero.1 h))]

/-- C6 (amended): the script performs no minimum-population check and defines
no `InsufficientDataError`; whenever the column drop succeeds, the
contamination is acceptable to the library and the feature matrix is nonempty
with no missing value — in particular for a single valid device — the
pipeline returns a result. -/
theorem no_insufficient_data_check (alg : IsoForestAlg) (df : DF) (c : ℚ)
    (hu : df.hasUnnamed0 = true) (hc1 : 0 < c) (hc2 : c ≤ 1 / 2)
    (hne : featuresOf df.rows ≠ [])
    (hval : ∀ f ∈ featuresOf df.rows, f.2 ≠ none) :
    ∃ S dfPost, analyze_df alg df c = .ok (S, dfPost) :=
  ⟨_, _, analyze_df_ok_of_valid alg df c hu hc1 hc2 hne hval⟩

unseal Rat.add Rat.sub Rat.mul Rat.inv in
/-- Witness for the amended C6 at a concrete one-device input. -/
theorem no_insufficient_data_check_witness :
    ∃ S dfPost, analyze_df algNormal dfOne (3/20) = .ok (S, dfPost) :=
  no_insufficient_data_check algNormal dfOne (3/20) (by decide) (by decide)
    (by decide) (by decide) (by decide)

unseal Rat.add Rat.sub Rat.mul Rat.inv in
/-- Counterexample to C6 as stated: an input whose scorable population is a
single device (fewer than 2 valid feature vectors) does not fail — no
`InsufficientDataError` exists anywhere in the script — and an anomaly set
(here empty) is produced. -/
theorem one_valid_device_returns_ok :
    analyze_df algNormal dfOne (3/20) = .ok (∅, dfOneMut) := by decide

/-- C8 (amended): the pipeline does mutate the caller's dataframe, but only by
assigning the two derived columns `total_proc_count` and `difference_count`
(lines 31-32): the column set otherwise, the row count, and every value of
the five documented input columns are unchanged. -/
theorem analyze_df_mutation_scope (alg : IsoForestAlg) (df : DF) (c : ℚ)
    (S : Finset String) (dfPost : DF)
    (h : analyze_df alg df c = .ok (S, dfPost)) :
    dfPost.hasUnnamed0 = df.hasUnnamed0 ∧
    dfPost.rows = addDerived df.rows ∧
    dfPost.rows.map stripDerived = df.rows.map stripDerived ∧
    dfPost.rows.length = df.rows.length := by
  have hpost : dfPost = { df with rows := addDerived df.rows } := by
    unfold analyze_df at h
    by_cases hu : df.hasUnnamed0 = false
    · rw [if_pos hu] at h; cases h
    · rw [if_neg hu] at h
      cases hsk : sklearnFitPredict alg c 42 (featuresOf df.rows) with
      | error e => rw [hsk] at h; cases h
      | ok pr =>
        rw [hsk, sklearnFitPredict_ok hsk] at h
        simp only [Except.ok.injEq, Prod.mk.injEq] at h
        exact h.2.symm
  subst hpost
  refine ⟨rfl, rfl, ?_, by simp [addDerived]⟩
  show (addDerived df.rows).map stripDerived = df.rows.map stripDerived
  unfold addDerived
  rw [List.map_map]
  exact List.map_congr_left fun r _ => rfl

unseal Rat.add Rat.sub Rat.mul Rat.inv in
/-- Witness for the amended C8 at a concrete input. -/
theorem analyze_df_mutation_scope_witness :
    dfTwoMut.hasUnnamed0 = dfTwo.hasUnnamed0 ∧
    dfTwoMut.rows = addDerived dfTwo.rows ∧
    dfTwoMut.rows.map stripDerived = dfTwo.rows.map stripDerived ∧
    dfTwoMut.rows.length = dfTwo.rows.length :=
  analyze_df_mutation_scope algNormal dfTwo (3/20) ∅ dfTwoMut (by decide)

unseal Rat.add Rat.sub Rat.mul Rat.inv in
/-- Counterexample to C8 as stated: the caller's dataframe is not left
unchanged — after a successful call it has acquired the two derived
columns. -/
theorem analyze_df_mutates_input :
    analyze_df algNormal dfTwo (3/20) = .ok (∅, dfTwoMut) ∧ dfTwoMut ≠ dfTwo := by
  decide

/-- C9 (amended): the script never validates the contamination fraction
itself and defines no `ConfigurationError`; an unacceptable value is rejected
only inside the library's `fit` — with a `ValueError`, and only after the
aggregation has already run — and no silent fallback or partial result is
produced.  (scikit-learn moreover accepts only (0, 0.5], so values in
(0.5, 1), legal per the spec, are rejected too.) -/
theorem invalid_contamination_library_error (alg : IsoForestAlg) (df : DF)
    (c : ℚ) (hu : df.hasUnnamed0 = true) (hc : ¬ (0 < c ∧ c ≤ 1 / 2)) :
    analyze_df alg df c = .error (.valueError "contamination") := by
  unfold analyze_df sklearnFitPredict
  rw [if_neg (by rw [hu]; simp)]
  rw [if_pos hc]

unseal Rat.add Rat.sub Rat.mul Rat.inv in
/-- Witness for the amended C9: contamination 2 (outside (0,1)) reaches the
library and is rejected there. -/
theorem invalid_contamination_library_error_witness :
    analyze_df algNormal dfOne 2 = .error (.valueError "contamination") :=
  invalid_contamination_library_error algNormal dfOne 2 (by decide) (by decide)

unseal Rat.add Rat.sub Rat.mul Rat.inv in
/-- Counterexample to C9 as stated: with contamination 2 — outside (0,1) —
and an input lacking the `"Unnamed: 0"` column, the failure is the
preprocessing `KeyError`, not a configuration error: the contamination value
is not checked before computation on the input begins, and no
`ConfigurationError` exists in the script. -/
theorem invalid_contamination_not_checked_first :
    analyze_df algNormal dfNoU 2 = .error (.keyError "Unnamed: 0") ∧
    ¬ ((0 : ℚ) < 2 ∧ (2 : ℚ) < 1) := by decide

/-- C2 (amended): a device with exactly one scan does get the distinguished
missing value (NaN, here `none`) as its std feature — that half of the claim
is true — but it is *not* excluded from scoring: its feature vector, missing
value included, appears in the feature matrix handed to the isolation
ensemble, and the library then rejects the NaN so the whole run fails; no
separate "insufficient data" subset exists anywhere in the pipeline. -/
theorem single_scan_device_nan_not_excluded (alg : IsoForestAlg) (df : DF)
    (d : String) (c : ℚ) (hWF : WFRows df.rows) (hu : df.hasUnnamed0 = true)
    (hd : d ∈ devicesOf df.rows)
    (h1 : (distinctScans df.rows d).length = 1)
    (hc1 : 0 < c) (hc2 : c ≤ 1 / 2) :
    (deviceFeature df.rows d).stdsq_difference_count = none ∧
    deviceFeature df.rows d ∈ fdOf df.rows ∧
    ((deviceFeature df.rows d).mean_difference_count, (none : Option ℚ)) ∈
      featuresOf df.rows ∧
    analyze_df alg df c = .error (.valueError "NaN") := by
  have hlen : (deviceGroup (npOf df.rows) d).length = 1 := by
    rw [(deviceGroup_perm hWF d).length_eq]
    unfold specDiscrepancies
    rw [List.length_map]
    exact h1
  have hstd : (deviceFeature df.rows d).stdsq_difference_count = none := by
    show sampleVarO (deviceGroup (npOf df.rows) d) = none
    unfold sampleVarO
    rw [hlen]
    norm_num
  have hmem : deviceFeature df.rows d ∈ fdOf df.rows := mem_fdOf.2 ⟨d, hd, rfl⟩
  have hfeat : ((deviceFeature df.rows d).mean_difference_count,
      (none : Option ℚ)) ∈ featuresOf df.rows := by
    unfold featuresOf
    rw [List.mem_map]
    exact ⟨deviceFeature df.rows d, hmem, by rw [hstd]⟩
  refine ⟨hstd, hmem, hfeat, ?_⟩
  unfold analyze_df sklearnFitPredict
  rw [if_neg (by rw [hu]; simp)]
  rw [if_neg (not_not_intro ⟨hc1, hc2⟩)]
  rw [if_pos (List.any_eq_true.2
    ⟨((deviceFeature df.rows d).mean_difference_count, (none : Option ℚ)),
      hfeat, by simp⟩)]

unseal Rat.add Rat.sub Rat.mul Rat.inv in
/-- Witness for the amended C2: device `a` of `dfSingle` has exactly one
scan. -/
theorem single_scan_device_nan_not_excluded_witness :
    (deviceFeature dfSingle.rows "a").stdsq_difference_count = none ∧
    deviceFeature dfSingle.rows "a" ∈ fdOf dfSingle.rows ∧
    ((deviceFeature dfSingle.rows "a").mean_difference_count, (none : Option ℚ)) ∈
      featuresOf dfSingle.rows ∧
    analyze_df algNormal dfSingle (3/20) = .error (.valueError "NaN") :=
  single_scan_device_nan_not_excluded algNormal dfSingle "a" (3/20) (by decide)
    (by decide) (by decide) (by decide) (by decide) (by decide)

unseal Rat.add Rat.sub Rat.mul Rat.inv in
/-- Counterexample to C2 as stated: the single-scan device's feature vector
(mean 0, missing std) is passed into the isolation ensemble — it is in the
feature matrix the forest is fitted on — and the run then fails wholesale
instead of reporting the device in a separate "insufficient data" subset. -/
theorem single_scan_device_feature_passed_to_forest :
    ((0 : ℚ), (none : Option ℚ)) ∈ featuresOf dfSingle.rows ∧
    analyze_df algNormal dfSingle (3/20) = .error (.valueError "NaN") := by
  decide

theorem allEqual_iff_range_zero (scores : List ℚ) (h : scores ≠ []) :
    allEqualQ scores ↔
      listMax (scores.map fun s => -s) - listMin (scores.map fun s => -s) = 0 := by
  have hne : (scores.map fun s => -s) ≠ [] := by
    intro hnil
    exact h (List.map_eq_nil_iff.1 hnil)
  constructor
  · intro hall
    obtain ⟨x, hx, hx2⟩ := List.mem_map.1 (listMin_mem _ hne)
    obtain ⟨y, hy, hy2⟩ := List.mem_map.1 (listMax_mem _ hne)
    rw [← hx2, ← hy2, hall y hy x hx]
    ring
  · intro hzero x hx y hy
    have h1 : -x ∈ scores.map fun s => -s := List.mem_map.2 ⟨x, hx, rfl⟩
    have h2 : -y ∈ scores.map fun s => -s := List.mem_map.2 ⟨y, hy, rfl⟩
    have e1 := listMin_le _ _ h1
    have e2 := le_listMax _ _ h1
    have e3 := listMin_le _ _ h2
    have e4 := le_listMax _ _ h2
    have : -x = -y := by linarith
    linarith

/-- C4: the code's normalization — `MinMaxScaler` applied to the negated raw
scores — computes exactly the specification's formula
`(−raw − min(−raw)) / (max(−raw) − min(−raw))`; for a non-degenerate score
set every normalized value lies in [0, 1] and both bounds are attained, and
for a degenerate set (all raw scores equal) every normalized value is 0 (the
scaler replaces the zero range by 1 rather than dividing by zero). -/
theorem normalizer_matches_spec (scores : List ℚ) (h : scores ≠ []) :
    minMaxScale (scores.map fun s => -s) = specNormalize scores ∧
    (¬ allEqualQ scores →
      (∀ x ∈ minMaxScale (scores.map fun s => -s), 0 ≤ x ∧ x ≤ 1) ∧
      (0 : ℚ) ∈ minMaxScale (scores.map fun s => -s) ∧
      (1 : ℚ) ∈ minMaxScale (scores.map fun s => -s)) ∧
    (allEqualQ scores → ∀ x ∈ minMaxScale (scores.map fun s => -s), x = 0) := by
  have hne : (scores.map fun s => -s) ≠ [] := by
    intro hnil
    exact h (List.map_eq_nil_iff.1 hnil)
  set negs := scores.map fun s => -s with hnegs
  set mn := listMin negs with hmn
  set mx := listMax negs with hmx
  have hmn_le_mx : mn ≤ mx := le_trans (listMin_le _ _ (listMax_mem _ hne)) le_rfl
  have hforce : ∀ s ∈ scores, mx - mn = 0 → -s = mn := by
    intro s hs hr
    have hmem : -s ∈ negs := List.mem_map.2 ⟨s, hs, rfl⟩
    have e1 := listMin_le _ _ hmem
    have e2 := le_listMax _ _ hmem
    linarith
  refine ⟨?_, ?_, ?_⟩
  · unfold minMaxScale specNormalize
    rw [List.map_map]
    apply List.map_congr_left
    intro s hs
    simp only [Function.comp]
    by_cases hr : mx - mn = 0
    · rw [if_pos hr, if_pos hr, hforce s hs hr]
      simp
    · rw [if_neg hr, if_neg hr]
  · intro hall
    have hr : mx - mn ≠ 0 :=
      fun hr => hall ((allEqual_iff_range_zero scores h).2 hr)
    have hpos : 0 < mx - mn := lt_of_le_of_ne (by linarith) (Ne.symm hr)
    refine ⟨?_, ?_, ?_⟩
    · intro x hx
      unfold minMaxScale at hx
      obtain ⟨v, hv, rfl⟩ := List.mem_map.1 hx
      rw [if_neg hr]
      constructor
      · exact div_nonneg (by linarith [listMin_le _ _ hv]) hpos.le
      · rw [div_le_one hpos]
        linarith [le_listMax _ _ hv]
    · unfold minMaxScale
      refine List.mem_map.2 ⟨mn, listMin_mem _ hne, ?_⟩
      rw [if_neg hr]
      simp
    · unfold minMaxScale
      refine List.mem_map.2 ⟨mx, listMax_mem _ hne, ?_⟩
      rw [if_neg hr]
      exact div_self hr
  · intro hall x hx
    have hr : mx - mn = 0 := (allEqual_iff_range_zero scores h).1 hall
    unfold minMaxScale at hx
    obtain ⟨v, hv, rfl⟩ := List.mem_map.1 hx
    obtain ⟨s, hs, rfl⟩ := List.mem_map.1 hv
    rw [if_pos hr, hforce s hs hr]
    simp

/-- Witness for C4 at a concrete nonempty score list. -/
theorem normalizer_matches_spec_witness :
    minMaxScale ([3, 1].map fun s => -s) = specNormalize [3, 1] ∧
    (¬ allEqualQ [3, 1] →
      (∀ x ∈ minMaxScale ([3, 1].map fun s => -s), 0 ≤ x ∧ x ≤ 1) ∧
      (0 : ℚ) ∈ minMaxScale ([3, 1].map fun s => -s) ∧
      (1 : ℚ) ∈ minMaxScale ([3, 1].map fun s => -s)) ∧
    (allEqualQ [3, 1] → ∀ x ∈ minMaxScale ([3, 1].map fun s => -s), x = 0) :=
  normalizer_matches_spec [3, 1] (by simp)

/-! ### The spec-modelled contamination thresholding -/

theorem thresholdKey_trans (scores : List ℚ) :
    ∀ a b c : ℕ, thresholdKey scores a b → thresholdKey scores b c →
      thresholdKey scores a c := by
  intro a b c hab hbc
  simp only [thresholdKey, decide_eq_true_eq] at hab hbc ⊢
  rcases hab with h1 | ⟨h1, h2⟩ <;> rcases hbc with h3 | ⟨h3, h4⟩
  · exact Or.inl (lt_trans h1 h3)
  · exact Or.inl (h3 ▸ h1)
  · exact Or.inl (h1 ▸ h3)
  · exact Or.inr ⟨h1.trans h3, le_trans h2 h4⟩

theorem thresholdKey_total (scores : List ℚ) :
    ∀ a b : ℕ, thresholdKey scores a b || thresholdKey scores b a := by
  intro a b
  simp only [thresholdKey, Bool.or_eq_true, decide_eq_true_eq]
  rcases lt_trichotomy (scores.getD a 0) (scores.getD b 0) with h | h | h
  · exact Or.inl (Or.inl h)
  · rcases Nat.le_total a b with hab | hab
    · exact Or.inl (Or.inr ⟨h, hab⟩)
    · exact Or.inr (Or.inr ⟨h.symm, hab⟩)
  · exact Or.inr (Or.inl h)

theorem count_true_map_decide {α : Type} (l : List α) (p : α → Prop)
    [DecidablePred p] :
    (l.map fun a => decide (p a)).count true = l.countP fun a => decide (p a) := by
  induction l with
  | nil => rfl
  | cons x xs ih =>
    by_cases hx : p x <;>
      simp [List.count_cons, List.countP_cons, ih, hx]

theorem countP_mem_range (N : ℕ) (T : List ℕ) (hnd : T.Nodup)
    (hsub : ∀ i ∈ T, i ∈ List.range N) :
    ((List.range N).countP fun i => decide (i ∈ T)) = T.length := by
  rw [List.countP_eq_length_filter]
  have hperm : List.Perm ((List.range N).filter fun i => decide (i ∈ T)) T := by
    refine (List.perm_ext_iff_of_nodup ((List.nodup_range N).filter _) hnd).2 ?_
    intro a
    rw [List.mem_filter]
    simp only [decide_eq_true_eq]
    exact ⟨fun h => h.2, fun h => ⟨hsub a h, h⟩⟩
  exact hperm.length_eq

/-- C7 (spec-modelled): the thresholding step of §4.2, on a population of `N`
scored devices with contamination `c ∈ (0,1)`, marks exactly
`round (c · N)` devices anomalous (certainly within the claim's rounding
tolerance of 1), and every marked device is at least as anomalous — strictly
lower raw score, or equal score with earlier stable position — as every
unmarked one. -/
theorem specThreshold_contamination_count (scores : List ℚ) (c : ℚ)
    (h0 : 0 < c) (h1 : c < 1) :
    (((specThreshold scores c).count true : ℤ) =
        round (c * (scores.length : ℚ))) ∧
    (∀ i j : ℕ, i < scores.length → j < scores.length →
      (specThreshold scores c).getD i false = true →
      (specThreshold scores c).getD j false = false →
      scores.getD i 0 < scores.getD j 0 ∨
        (scores.getD i 0 = scores.getD j 0 ∧ i < j)) := by
  have hround0 : 0 ≤ round (c * (scores.length : ℚ)) := by
    rw [round_eq]
    apply Int.le_floor.2
    have : (0 : ℚ) ≤ c * (scores.length : ℚ) :=
      mul_nonneg h0.le (Nat.cast_nonneg _)
    push_cast
    linarith
  have hroundN : round (c * (scores.length : ℚ)) ≤ (scores.length : ℤ) := by
    rw [round_eq, Int.floor_le_iff]
    rcases Nat.eq_zero_or_pos scores.length with hz | hpos
    · rw [hz]; push_cast; linarith
    · have hNpos : (0 : ℚ) < (scores.length : ℚ) := by exact_mod_cast hpos
      push_cast
      nlinarith
  have hkZ : (((round (c * (scores.length : ℚ))).toNat : ℤ)) =
      round (c * (scores.length : ℚ)) := Int.toNat_of_nonneg hround0
  have hkN : (round (c * (scores.length : ℚ))).toNat ≤ scores.length := by omega
  have hperm : List.Perm (thresholdOrder scores) (List.range scores.length) :=
    List.mergeSort_perm _ _
  have hlen : (thresholdOrder scores).length = scores.length := by
    rw [hperm.length_eq, List.length_range]
  have hnd : (thresholdOrder scores).Nodup :=
    hperm.nodup_iff.2 (List.nodup_range _)
  have hTnd : ((thresholdOrder scores).take
      (round (c * (scores.length : ℚ))).toNat).Nodup :=
    (List.take_sublist _ _).nodup hnd
  have hTsub : ∀ i ∈ (thresholdOrder scores).take
      (round (c * (scores.length : ℚ))).toNat, i ∈ List.range scores.length :=
    fun i hi => hperm.subset (List.take_subset _ _ hi)
  have hTlen : ((thresholdOrder scores).take
      (round (c * (scores.length : ℚ))).toNat).length =
      (round (c * (scores.length : ℚ))).toNat := by
    rw [List.length_take, hlen]
    exact min_eq_left hkN
  constructor
  · unfold specThreshold
    rw [count_true_map_decide, countP_mem_range _ _ hTnd hTsub, hTlen]
    exact hkZ
  · have hgetD : ∀ i, i < scores.length →
        (specThreshold scores c).getD i false =
          decide (i ∈ (thresholdOrder scores).take
            (round (c * (scores.length : ℚ))).toNat) := by
      intro i hi
      unfold specThreshold
      rw [List.getD_eq_getElem?_getD, List.getElem?_map, List.getElem?_range hi]
      rfl
    intro i j hi hj htrue hfalse
    rw [hgetD i hi] at htrue
    rw [hgetD j hj] at hfalse
    rw [decide_eq_true_eq] at htrue
    have hjT : j ∉ (thresholdOrder scores).take
        (round (c * (scores.length : ℚ))).toNat :=
      of_decide_eq_false hfalse
    have hjorder : j ∈ thresholdOrder scores :=
      hperm.mem_iff.2 (List.mem_range.2 hj)
    rw [← List.take_append_drop (round (c * (scores.length : ℚ))).toNat
      (thresholdOrder scores)] at hjorder
    have hjdrop : j ∈ (thresholdOrder scores).drop
        (round (c * (scores.length : ℚ))).toNat := by
      rcases List.mem_append.1 hjorder with hmem | hmem
      · exact absurd hmem hjT
      · exact hmem
    have hsorted : (thresholdOrder scores).Pairwise
        (fun a b => thresholdKey scores a b) :=
      List.sorted_mergeSort (thresholdKey_trans scores)
        (thresholdKey_total scores) (List.range scores.length)
    rw [← List.take_append_drop (round (c * (scores.length : ℚ))).toNat
      (thresholdOrder scores)] at hsorted
    have hkey : thresholdKey scores i j :=
      (List.pairwise_append.1 hsorted).2.2 i htrue j hjdrop
    have hne : i ≠ j := by
      intro hij
      subst hij
      exact hjT htrue
    simp only [thresholdKey, decide_eq_true_eq] at hkey
    rcases hkey with hlt | ⟨heq, hle⟩
    · exact Or.inl hlt
    · exact Or.inr ⟨heq, lt_of_le_of_ne hle hne⟩

/-- Witness for C7 at a concrete score list and contamination. -/
theorem specThreshold_contamination_count_witness :
    ((((specThreshold [5, 2, 9] (1/3)).count true : ℤ) =
        round ((1/3 : ℚ) * (([5, 2, 9] : List ℚ).length : ℚ)))) ∧
    (∀ i j : ℕ, i < ([5, 2, 9] : List ℚ).length →
      j < ([5, 2, 9] : List ℚ).length →
      (specThreshold [5, 2, 9] (1/3)).getD i false = true →
      (specThreshold [5, 2, 9] (1/3)).getD j false = false →
      ([5, 2, 9] : List ℚ).getD i 0 < ([5, 2, 9] : List ℚ).getD j 0 ∨
        (([5, 2, 9] : List ℚ).getD i 0 = ([5, 2, 9] : List ℚ).getD j 0 ∧ i < j)) :=
  specThreshold_contamination_count [5, 2, 9] (1/3) (by norm_num) (by norm_num)

end StatAnalysis
